import Mathlib

/-!
Shallow embedding of the report ingestion/reconciliation pipeline and the
storage adapters' index update of the local-dashboard-platform repository.

The embedding follows the TypeScript sources:
 - `cli/src/trace-processor.ts` (class `TraceProcessor`)
 - `cli/src/report-manager.ts` (class `ReportManager`)
 - `cli/src/storage/sharepoint-storage-adapter.ts` (class `SharePointStorageAdapter`)
 - the GitHub storage adapter (class `GitHubStorageAdapter`)
 - `cli/src/github-uploader.ts` (class `GitHubUploader`)

Filesystem- and network-dependent helpers (globbing, zip reading, JSON
parsing, HTTP) are embedded at their output boundary: a structure field
holds the value such a helper returns, with `Option`/sum types standing for
"the call threw".  All functions are total and executable.
-/

/-- JavaScript `haystack.includes(needle)` on `List Char`: `isPre n h` is
`true` iff `n` is an initial segment of `h` (character-wise equality). -/
def isPre : List Char → List Char → Bool
  | [], _ => true
  | _ :: _, [] => false
  | c :: cs, d :: ds => c == d && isPre cs ds

/-- `hasSub needle hay = true` iff `needle` occurs contiguously in `hay`. -/
def hasSub (needle : List Char) : List Char → Bool
  | [] => isPre needle []
  | c :: t => isPre needle (c :: t) || hasSub needle t

/-- JavaScript `s.includes(sub)`: substring containment test. -/
def strIncludes (s sub : String) : Bool :=
  hasSub sub.toList s.toList

/-- JavaScript `s.endsWith(post)`: suffix test (checked on the reversed
character lists). -/
def strEndsWith (s post : String) : Bool :=
  isPre post.toList.reverse s.toList.reverse

/-- The Playwright status union of `cli/src/types`:
`'passed' | 'failed' | 'skipped' | 'timedOut' | 'interrupted'`. -/
inductive Status where
  | passed
  | failed
  | skipped
  | timedOut
  | interrupted
  deriving DecidableEq, Repr

/-- The outcome union `'pass' | 'fail' | 'skip'` used by the reconciler. -/
inductive Outcome where
  | pass
  | fail
  | skip
  deriving DecidableEq, Repr

/-- `TestExecutionIntent` (the fields the reconciler reads).
`targetTests` is optional in the source (`intent.targetTests?.some`), so it
is embedded as `Option (List String)`. -/
structure TestExecutionIntent where
  expectFailures : Bool
  targetTests : Option (List String)
  deriving Repr

/-- A screenshot record as built by `collectScreenshots` (the field the
outcome classifier reads: `filePath`, which is `join(testDir, file)`). -/
structure Screenshot where
  filePath : String
  deriving DecidableEq, Repr

/-- One per-test artifact directory, embedded at the boundary of the
filesystem helpers `findTraceFile` (globby over `trace.zip`, `*.trace`,
`*.zip`; `none` when no trace bundle is present) and `collectScreenshots`
(globby over `*.png`, `*.jpg`, `*.jpeg`). -/
structure ArtifactDir where
  traceFile : Option String
  screenshots : List Screenshot
  deriving Repr

/-- A raw `PlaywrightTestResult` (the fields `processTestResults` reads). -/
structure PlaywrightTestResult where
  testTitle : String
  status : Status
  duration : Nat
  screenshots : List Screenshot
  traceFile : Option String
  deriving Repr

/-- One enhanced result of `processTestResults`' `results.map` (lines
188–203 of `trace-processor.ts`). -/
structure EnhancedResult where
  testName : String
  status : Status
  duration : Nat
  screenshots : List String
  traceFile : Option String
  actualOutcome : Outcome
  expectedOutcome : Outcome
  outcomeMatch : Bool
  deriving Repr

/-- The enhanced summary returned by `calculateEnhancedSummary`. -/
structure Summary where
  total : Nat
  passed : Nat
  failed : Nat
  skipped : Nat
  expectedFails : Nat
  unexpectedFails : Nat
  expectedPasses : Nat
  unexpectedPasses : Nat
  deriving DecidableEq, Repr

namespace TraceProcessor

/-- `TraceProcessor.mapStatusToOutcome`: `passed → pass`;
`failed`/`timedOut`/`interrupted` → `fail`; `skipped → skip`
(the `default` branch of the switch also returns `fail`, but the status
union has no further inhabitant). -/
def mapStatusToOutcome : Status → Outcome
  | .passed => .pass
  | .failed => .fail
  | .timedOut => .fail
  | .interrupted => .fail
  | .skipped => .skip

/-- The status normalization on line 194 of `trace-processor.ts`:
`result.status === 'timedOut' || result.status === 'interrupted' ? 'failed'
: result.status`. -/
def normalizeStatus : Status → Status
  | .timedOut => .failed
  | .interrupted => .failed
  | s => s

/-- `TraceProcessor.determineExpectedOutcome`: `fail` when
`intent.expectFailures` and some `target` of `intent.targetTests` occurs in
`result.testTitle`; otherwise `pass`. -/
def determineExpectedOutcome (result : PlaywrightTestResult)
    (intent : TestExecutionIntent) : Outcome :=
  if intent.expectFailures then
    if (intent.targetTests.getD []).any
        (fun target => strIncludes result.testTitle target) then
      Outcome.fail
    else
      Outcome.pass
  else
    Outcome.pass

/-- The body of `results.map` in `processTestResults` (lines 188–203):
normalize the status, compute both outcomes and their match. -/
def enhanceResult (intent : TestExecutionIntent)
    (result : PlaywrightTestResult) : EnhancedResult :=
  let actualOutcome := mapStatusToOutcome result.status
  let expectedOutcome := determineExpectedOutcome result intent
  { testName := result.testTitle
    status := normalizeStatus result.status
    duration := result.duration
    screenshots := result.screenshots.map (fun s => s.filePath)
    traceFile := result.traceFile
    actualOutcome := actualOutcome
    expectedOutcome := expectedOutcome
    outcomeMatch := actualOutcome == expectedOutcome }

/-- The `results.map` of `processTestResults`. -/
def processResults (intent : TestExecutionIntent)
    (results : List PlaywrightTestResult) : List EnhancedResult :=
  results.map (enhanceResult intent)

/-- `TraceProcessor.calculateEnhancedSummary` (lines 264–285). -/
def calculateEnhancedSummary (results : List EnhancedResult) : Summary :=
  { total := results.length
    passed := (results.filter (fun r => r.status == Status.passed)).length
    failed := (results.filter (fun r => r.status == Status.failed)).length
    skipped := (results.filter (fun r => r.status == Status.skipped)).length
    expectedFails := (results.filter
      (fun r => r.expectedOutcome == Outcome.fail
        && r.actualOutcome == Outcome.fail)).length
    unexpectedFails := (results.filter
      (fun r => r.expectedOutcome == Outcome.pass
        && r.actualOutcome == Outcome.fail)).length
    expectedPasses := (results.filter
      (fun r => r.expectedOutcome == Outcome.pass
        && r.actualOutcome == Outcome.pass)).length
    unexpectedPasses := (results.filter
      (fun r => r.expectedOutcome == Outcome.fail
        && r.actualOutcome == Outcome.pass)).length }

/-- `TraceProcessor.determineTestStatus` (lines 413–428): a present trace
bundle forces `failed`; otherwise a screenshot whose `filePath` contains
`error` or `failure` forces `failed`; otherwise `passed`. -/
def determineTestStatus (dir : ArtifactDir) : Status :=
  if dir.traceFile.isSome then
    Status.failed
  else if dir.screenshots.any (fun s =>
      strIncludes s.filePath "error" || strIncludes s.filePath "failure") then
    Status.failed
  else
    Status.passed

end TraceProcessor

/-- One raw error record inside a trace entry's JSON
(`traceData.errors[i]`): every field may be absent. -/
structure RawErrorRec where
  message : Option String
  stack : Option String
  locFile : Option String
  locLine : Option Nat
  locColumn : Option Nat
  deriving DecidableEq, Repr

/-- One raw action record inside a trace entry's JSON
(`traceData.actions[i]`). -/
structure RawActionRec where
  apiName : Option String
  method : Option String
  startTime : Int
  endTime : Int
  deriving DecidableEq, Repr

/-- The JSON value a structured trace entry parses to: `errors` and
`actions` may each be absent. -/
structure TraceData where
  errors : Option (List RawErrorRec)
  actions : Option (List RawActionRec)
  deriving DecidableEq, Repr

/-- One entry of the zip container, embedded at the boundary of
`entry.getData()` / `JSON.parse`: `parsed = none` means `JSON.parse` threw
on this entry's content (the entry is malformed). -/
structure TraceEntry where
  entryName : String
  parsed : Option TraceData
  deriving DecidableEq, Repr

/-- A normalized `PlaywrightError` as built by `extractErrorsFromTrace`. -/
structure PlaywrightError where
  message : String
  stack : String
  locFile : String
  locLine : Nat
  locColumn : Nat
  deriving DecidableEq, Repr

/-- A `TestStep` as built by `extractStepsFromTrace` (the random `id` is
omitted; `title` and `duration` are the computed fields). -/
structure TestStep where
  title : String
  duration : Int
  deriving DecidableEq, Repr

namespace TraceProcessor

/-- Whether the extraction loop treats a zip entry as a structured record
stream: `entry.entryName === 'trace.trace' || entry.entryName.endsWith('.json')`. -/
def isStructuredEntry (e : TraceEntry) : Bool :=
  e.entryName == "trace.trace" || strEndsWith e.entryName ".json"

/-- The error normalization inside `extractErrorsFromTrace`'s inner loop:
each absent field is defaulted. -/
def normalizeError (err : RawErrorRec) : PlaywrightError :=
  { message := err.message.getD "Unknown error"
    stack := err.stack.getD ""
    locFile := err.locFile.getD "unknown"
    locLine := err.locLine.getD 0
    locColumn := err.locColumn.getD 0 }

/-- The step normalization inside `extractStepsFromTrace`'s inner loop:
`title` is `action.apiName || action.method || 'Unknown step'`, `duration`
is `action.endTime - action.startTime || 0`. -/
def normalizeStep (a : RawActionRec) : TestStep :=
  { title := (a.apiName.or a.method).getD "Unknown step"
    duration := a.endTime - a.startTime }

/-- The entry loop of `extractErrorsFromTrace` (lines 533–553).  The
`try`/`catch` of the source wraps the WHOLE loop: when `JSON.parse` throws
on a structured entry (`parsed = none`), control jumps to the `catch`
outside the loop and the records accumulated so far are returned. -/
def extractErrorsLoop : List TraceEntry → List PlaywrightError →
    List PlaywrightError
  | [], acc => acc
  | e :: rest, acc =>
    if isStructuredEntry e then
      match e.parsed with
      | none => acc
      | some traceData =>
        extractErrorsLoop rest (acc ++ (traceData.errors.getD []).map normalizeError)
    else
      extractErrorsLoop rest acc

/-- `TraceProcessor.extractErrorsFromTrace` (lines 525–560): only `.zip`
paths are opened; the entries are the zip's contents. -/
def extractErrorsFromTrace (traceFilePath : String)
    (entries : List TraceEntry) : List PlaywrightError :=
  if strEndsWith traceFilePath ".zip" then
    extractErrorsLoop entries []
  else
    []

/-- The entry loop of `extractStepsFromTrace` (lines 570–587), with the same
whole-loop `try`/`catch` as the error loop. -/
def extractStepsLoop : List TraceEntry → List TestStep → List TestStep
  | [], acc => acc
  | e :: rest, acc =>
    if isStructuredEntry e then
      match e.parsed with
      | none => acc
      | some traceData =>
        extractStepsLoop rest (acc ++ (traceData.actions.getD []).map normalizeStep)
    else
      extractStepsLoop rest acc

/-- `TraceProcessor.extractStepsFromTrace` (lines 562–593). -/
def extractStepsFromTrace (traceFilePath : String)
    (entries : List TraceEntry) : List TestStep :=
  if strEndsWith traceFilePath ".zip" then
    extractStepsLoop entries []
  else
    []

end TraceProcessor

namespace ReportManager

/-- The parsed content of `report-counter.json`: JSON object whose
`lastNumber` field may be absent (then `data.lastNumber || 0` yields `0`). -/
structure CounterData where
  lastNumber : Option Nat
  deriving DecidableEq, Repr

/-- The state of the counter file as `getNextReportNumber` observes it. -/
inductive CounterFile where
  /-- `existsSync` is false. -/
  | absent
  /-- The file exists but `readFileSync`/`JSON.parse` throws. -/
  | corrupt
  /-- The file exists and parses to `d`. -/
  | ok (d : CounterData)
  deriving DecidableEq, Repr

/-- The ambient state `getNextReportNumber` interacts with: the counter
file, whether `writeFileSync` succeeds, and `Date.now()`. -/
structure World where
  file : CounterFile
  writeOk : Bool
  clock : Nat
  deriving DecidableEq, Repr

/-- `ReportManager.getNextReportNumber` (lines 36–57 of
`report-manager.ts`), as a state transformer on `World`.  Any throw
(corrupt file, failing write) lands in the `catch`, which returns
`Date.now()` and leaves the file as it was. -/
def getNextReportNumber (w : World) : Nat × World :=
  match w.file with
  | .ok data =>
    let nextNumber := data.lastNumber.getD 0 + 1
    if w.writeOk then
      (nextNumber, { w with file := .ok ⟨some nextNumber⟩ })
    else
      (w.clock, w)
  | .absent =>
    if w.writeOk then
      (1, { w with file := .ok ⟨some 1⟩ })
    else
      (w.clock, w)
  | .corrupt => (w.clock, w)

end ReportManager

/-- An entry of `reports/index.json` as built by
`GitHubStorageAdapter.updateReportsIndex` and
`GitHubUploader.updateReportsIndex`. -/
structure GitHubIndexEntry where
  id : String
  timestamp : String
  developer : String
  branch : String
  summary : Summary
  url : String
  deriving DecidableEq, Repr

/-- An entry of the SharePoint index as built by
`SharePointStorageAdapter.updateReportsIndex`. -/
structure SharePointIndexEntry where
  id : String
  timestamp : String
  developer : String
  branch : String
  environment : String
  totalTests : Nat
  passed : Nat
  failed : Nat
  duration : Nat
  deriving DecidableEq, Repr

namespace GitHubStorageAdapter

/-- The index mutation of `GitHubStorageAdapter.updateReportsIndex` (lines
158–164): `index.reports.unshift(reportSummary)`, then
`if (index.reports.length > 100) index.reports = index.reports.slice(0, 100)`.
No existing entry is removed first. -/
def updateReportsIndex (reports : List GitHubIndexEntry)
    (reportSummary : GitHubIndexEntry) : List GitHubIndexEntry :=
  let reports := reportSummary :: reports
  if reports.length > 100 then reports.take 100 else reports

end GitHubStorageAdapter

namespace GitHubUploader

/-- The index mutation of `GitHubUploader.updateReportsIndex` (lines
241–247 of `github-uploader.ts`): identical to the GitHub storage
adapter's — unshift, then truncate when longer than 100. -/
def updateReportsIndex (reports : List GitHubIndexEntry)
    (reportSummary : GitHubIndexEntry) : List GitHubIndexEntry :=
  let reports := reportSummary :: reports
  if reports.length > 100 then reports.take 100 else reports

end GitHubUploader

namespace SharePointStorageAdapter

/-- The index mutation of `SharePointStorageAdapter.updateReportsIndex`
(lines 187–196): remove every entry with the new entry's id, unshift the
new entry, keep only the first 100. -/
def updateReportsIndex (reports : List SharePointIndexEntry)
    (reportSummary : SharePointIndexEntry) : List SharePointIndexEntry :=
  let reports := reports.filter (fun r => r.id != reportSummary.id)
  let reports := reportSummary :: reports
  reports.take 100

end SharePointStorageAdapter

namespace TraceProcessor

/-- The result construction of `processTestDirectory` (lines 369–399): the
status comes from `determineTestStatus`, screenshots and trace file from the
directory scan; the title is parsed from the directory name (taken here as
given). -/
def processTestDirectory (testTitle : String) (dir : ArtifactDir) :
    PlaywrightTestResult :=
  { testTitle := testTitle
    status := determineTestStatus dir
    duration := 0
    screenshots := dir.screenshots
    traceFile := dir.traceFile }

/-- The raw result list of a run assembled solely from scanned test
directories (`processTestFiles`). -/
def scanResults (dirs : List (String × ArtifactDir)) :
    List PlaywrightTestResult :=
  dirs.map (fun d => processTestDirectory d.1 d.2)

end TraceProcessor

/-! ## Helper lemmas -/

namespace TraceProcessor

/-- The normalized status of every enhanced result is one of `passed`,
`failed`, `skipped`. -/
theorem enhanceResult_status (intent : TestExecutionIntent)
    (r : PlaywrightTestResult) :
    (enhanceResult intent r).status = Status.passed
    ∨ (enhanceResult intent r).status = Status.failed
    ∨ (enhanceResult intent r).status = Status.skipped := by
  cases h : r.status <;> simp [enhanceResult, normalizeStatus, h]

/-- Membership form of `enhanceResult_status`. -/
theorem processResults_status_mem (intent : TestExecutionIntent)
    (rs : List PlaywrightTestResult) (r : EnhancedResult)
    (h : r ∈ processResults intent rs) :
    r.status = Status.passed ∨ r.status = Status.failed
    ∨ r.status = Status.skipped := by
  obtain ⟨raw, _, rfl⟩ := List.mem_map.mp h
  exact enhanceResult_status intent raw

/-- After enhancement, `actualOutcome = fail` holds exactly on the results
whose normalized status is `failed`. -/
theorem enhanceResult_fail_iff (intent : TestExecutionIntent)
    (r : PlaywrightTestResult) :
    ((enhanceResult intent r).actualOutcome == Outcome.fail)
      = ((enhanceResult intent r).status == Status.failed) := by
  cases h : r.status <;>
    simp [enhanceResult, normalizeStatus, mapStatusToOutcome, h]

/-- After enhancement, `actualOutcome = pass` holds exactly on the results
whose normalized status is `passed`. -/
theorem enhanceResult_pass_iff (intent : TestExecutionIntent)
    (r : PlaywrightTestResult) :
    ((enhanceResult intent r).actualOutcome == Outcome.pass)
      = ((enhanceResult intent r).status == Status.passed) := by
  cases h : r.status <;>
    simp [enhanceResult, normalizeStatus, mapStatusToOutcome, h]

/-- `determineExpectedOutcome` never returns `skip`, so on enhanced results
`expectedOutcome = pass` is the complement of `expectedOutcome = fail`. -/
theorem enhanceResult_expected_not_skip (intent : TestExecutionIntent)
    (r : PlaywrightTestResult) :
    ((enhanceResult intent r).expectedOutcome == Outcome.pass)
      = !((enhanceResult intent r).expectedOutcome == Outcome.fail) := by
  simp only [enhanceResult, determineExpectedOutcome]
  cases h1 : intent.expectFailures <;>
    cases h2 : (intent.targetTests.getD []).any
      (fun target => strIncludes r.testTitle target) <;>
    simp [h1, h2]

end TraceProcessor

/-- Counting partition: in a list whose elements all have status `passed`,
`failed` or `skipped`, the three status counts add up to the length. -/
theorem count_status_partition (l : List EnhancedResult)
    (h : ∀ e ∈ l, e.status = Status.passed ∨ e.status = Status.failed
      ∨ e.status = Status.skipped) :
    (l.filter (fun r => r.status == Status.passed)).length
    + (l.filter (fun r => r.status == Status.failed)).length
    + (l.filter (fun r => r.status == Status.skipped)).length = l.length := by
  induction l with
  | nil => simp
  | cons e t ih =>
    have he := h e (List.mem_cons_self e t)
    have ht := ih (fun x hx => h x (List.mem_cons_of_mem _ hx))
    rcases he with h1 | h1 | h1 <;> simp [List.filter_cons, h1] <;> omega

/-- Generic split of a count along a Boolean flag: the elements satisfying
`q` split into those also satisfying `p` and those satisfying `!p`. -/
theorem length_filter_split {α : Type} (p q : α → Bool) (l : List α) :
    (l.filter (fun a => p a && q a)).length
    + (l.filter (fun a => !p a && q a)).length
    = (l.filter q).length := by
  induction l with
  | nil => simp
  | cons e t ih =>
    by_cases hp : p e = true <;> by_cases hq : q e = true <;>
      simp [List.filter_cons, hp, hq] <;> omega


namespace TraceProcessor

/-- Pointwise form of `enhanceResult_fail_iff` over a processed run. -/
theorem processResults_fail_iff (intent : TestExecutionIntent)
    (rs : List PlaywrightTestResult) :
    ∀ r ∈ processResults intent rs,
      (r.actualOutcome == Outcome.fail) = (r.status == Status.failed) := by
  intro r hr
  obtain ⟨raw, _, rfl⟩ := List.mem_map.mp hr
  exact enhanceResult_fail_iff intent raw

/-- Pointwise form of `enhanceResult_pass_iff` over a processed run. -/
theorem processResults_pass_iff (intent : TestExecutionIntent)
    (rs : List PlaywrightTestResult) :
    ∀ r ∈ processResults intent rs,
      (r.actualOutcome == Outcome.pass) = (r.status == Status.passed) := by
  intro r hr
  obtain ⟨raw, _, rfl⟩ := List.mem_map.mp hr
  exact enhanceResult_pass_iff intent raw

/-- Pointwise form of `enhanceResult_expected_not_skip` over a processed
run. -/
theorem processResults_expected (intent : TestExecutionIntent)
    (rs : List PlaywrightTestResult) :
    ∀ r ∈ processResults intent rs,
      (r.expectedOutcome == Outcome.pass)
        = !(r.expectedOutcome == Outcome.fail) := by
  intro r hr
  obtain ⟨raw, _, rfl⟩ := List.mem_map.mp hr
  exact enhanceResult_expected_not_skip intent raw

end TraceProcessor

/-! ## Claim theorems -/

/-- C2: for every intent and every raw result list, the assembled report's
summary satisfies `passed + failed + skipped = total` and `total` is the
number of (reconciled) results in the report. -/
theorem calculateEnhancedSummary_partition (intent : TestExecutionIntent)
    (rs : List PlaywrightTestResult) :
    (TraceProcessor.calculateEnhancedSummary
        (TraceProcessor.processResults intent rs)).passed
      + (TraceProcessor.calculateEnhancedSummary
          (TraceProcessor.processResults intent rs)).failed
      + (TraceProcessor.calculateEnhancedSummary
          (TraceProcessor.processResults intent rs)).skipped
      = (TraceProcessor.calculateEnhancedSummary
          (TraceProcessor.processResults intent rs)).total
    ∧ (TraceProcessor.calculateEnhancedSummary
          (TraceProcessor.processResults intent rs)).total
      = (TraceProcessor.processResults intent rs).length := by
  refine ⟨?_, rfl⟩
  exact count_status_partition _
    (fun e he => TraceProcessor.processResults_status_mem intent rs e he)

/-- C3: for every intent and every raw result list, the assembled report's
summary satisfies `expectedFails + unexpectedFails = failed` and
`expectedPasses + unexpectedPasses = passed` (resting on the fact that a
result's `actualOutcome` is `fail` exactly when its normalized status is
`failed`, and `pass` exactly when it is `passed`). -/
theorem calculateEnhancedSummary_outcome_split (intent : TestExecutionIntent)
    (rs : List PlaywrightTestResult) :
    (TraceProcessor.calculateEnhancedSummary
        (TraceProcessor.processResults intent rs)).expectedFails
      + (TraceProcessor.calculateEnhancedSummary
          (TraceProcessor.processResults intent rs)).unexpectedFails
      = (TraceProcessor.calculateEnhancedSummary
          (TraceProcessor.processResults intent rs)).failed
    ∧ (TraceProcessor.calculateEnhancedSummary
          (TraceProcessor.processResults intent rs)).expectedPasses
      + (TraceProcessor.calculateEnhancedSummary
          (TraceProcessor.processResults intent rs)).unexpectedPasses
      = (TraceProcessor.calculateEnhancedSummary
          (TraceProcessor.processResults intent rs)).passed := by
  have hexp := TraceProcessor.processResults_expected intent rs
  have hfail := TraceProcessor.processResults_fail_iff intent rs
  have hpass := TraceProcessor.processResults_pass_iff intent rs
  simp only [TraceProcessor.calculateEnhancedSummary]
  constructor
  · have e1 : (TraceProcessor.processResults intent rs).filter
        (fun r => r.expectedOutcome == Outcome.pass
          && r.actualOutcome == Outcome.fail)
        = (TraceProcessor.processResults intent rs).filter
          (fun r => !(r.expectedOutcome == Outcome.fail)
            && r.actualOutcome == Outcome.fail) :=
      List.filter_congr (fun r hr => by rw [hexp r hr])
    have e2 : (TraceProcessor.processResults intent rs).filter
        (fun r => r.actualOutcome == Outcome.fail)
        = (TraceProcessor.processResults intent rs).filter
          (fun r => r.status == Status.failed) :=
      List.filter_congr (fun r hr => hfail r hr)
    rw [e1,
      length_filter_split (fun r => r.expectedOutcome == Outcome.fail)
        (fun r => r.actualOutcome == Outcome.fail)
        (TraceProcessor.processResults intent rs),
      e2]
  · have e1 : (TraceProcessor.processResults intent rs).filter
        (fun r => r.expectedOutcome == Outcome.pass
          && r.actualOutcome == Outcome.pass)
        = (TraceProcessor.processResults intent rs).filter
          (fun r => !(r.expectedOutcome == Outcome.fail)
            && r.actualOutcome == Outcome.pass) :=
      List.filter_congr (fun r hr => by rw [hexp r hr])
    have e2 : (TraceProcessor.processResults intent rs).filter
        (fun r => r.actualOutcome == Outcome.pass)
        = (TraceProcessor.processResults intent rs).filter
          (fun r => r.status == Status.passed) :=
      List.filter_congr (fun r hr => hpass r hr)
    rw [e1, Nat.add_comm,
      length_filter_split (fun r => r.expectedOutcome == Outcome.fail)
        (fun r => r.actualOutcome == Outcome.pass)
        (TraceProcessor.processResults intent rs),
      e2]

/-- C6: the outcome classifier applies its rules in a fixed order — a
present trace bundle forces `failed` (regardless of the screenshots, so
trace presence takes precedence over screenshot evidence); otherwise a
screenshot whose path matches the error/failure naming heuristic forces
`failed`; otherwise the status is `passed`. -/
theorem determineTestStatus_rule_order :
    (∀ d : ArtifactDir, d.traceFile.isSome = true →
      TraceProcessor.determineTestStatus d = Status.failed)
  ∧ (∀ d : ArtifactDir, d.traceFile = none →
      (d.screenshots.any fun s =>
        strIncludes s.filePath "error" || strIncludes s.filePath "failure")
        = true →
      TraceProcessor.determineTestStatus d = Status.failed)
  ∧ (∀ d : ArtifactDir, d.traceFile = none →
      (d.screenshots.any fun s =>
        strIncludes s.filePath "error" || strIncludes s.filePath "failure")
        = false →
      TraceProcessor.determineTestStatus d = Status.passed) := by
  refine ⟨fun d h1 => ?_, fun d h1 h2 => ?_, fun d h1 h2 => ?_⟩
  · simp [TraceProcessor.determineTestStatus, h1]
  · simp [TraceProcessor.determineTestStatus, h1, h2]
  · simp [TraceProcessor.determineTestStatus, h1, h2]

/-- Witness for C6: a directory with a trace bundle and a passing-looking
screenshot is `failed` (trace wins); a trace-less directory with
`login-error.png` is `failed`; a trace-less clean directory is `passed`. -/
theorem determineTestStatus_rule_order_witness :
    TraceProcessor.determineTestStatus ⟨some "trace.zip", [⟨"ok.png"⟩]⟩
      = Status.failed
    ∧ TraceProcessor.determineTestStatus ⟨none, [⟨"login-error.png"⟩]⟩
      = Status.failed
    ∧ TraceProcessor.determineTestStatus ⟨none, [⟨"ok.png"⟩]⟩
      = Status.passed :=
  ⟨determineTestStatus_rule_order.1 ⟨some "trace.zip", [⟨"ok.png"⟩]⟩ rfl,
   determineTestStatus_rule_order.2.1 ⟨none, [⟨"login-error.png"⟩]⟩ rfl
     (by decide),
   determineTestStatus_rule_order.2.2 ⟨none, [⟨"ok.png"⟩]⟩ rfl (by decide)⟩

/-- C7: the reconciler's `expectedOutcome` is `fail` exactly when
`intent.expectFailures` is set and some element of `intent.targetTests`
occurs in the result's title as a substring; in every other case (including
an absent or empty `targetTests` list) it is `pass`. -/
theorem determineExpectedOutcome_spec (r : PlaywrightTestResult)
    (i : TestExecutionIntent) :
    (TraceProcessor.determineExpectedOutcome r i = Outcome.fail ↔
      (i.expectFailures = true ∧ ∃ t ∈ i.targetTests.getD [],
        strIncludes r.testTitle t = true))
    ∧ (TraceProcessor.determineExpectedOutcome r i = Outcome.pass ↔
      ¬(i.expectFailures = true ∧ ∃ t ∈ i.targetTests.getD [],
        strIncludes r.testTitle t = true)) := by
  unfold TraceProcessor.determineExpectedOutcome
  cases h1 : i.expectFailures <;>
    cases h2 : (i.targetTests.getD []).any
      (fun target => strIncludes r.testTitle target) <;>
    simp_all [List.any_eq_true]

/-- C8: `timedOut` and `interrupted` are normalized to `failed`, and every
status value on a processed (report-exposed) result is one of `passed`,
`failed`, `skipped`. -/
theorem processResults_status_exposed :
    TraceProcessor.normalizeStatus Status.timedOut = Status.failed
    ∧ TraceProcessor.normalizeStatus Status.interrupted = Status.failed
    ∧ ∀ (intent : TestExecutionIntent) (rs : List PlaywrightTestResult)
        (r : EnhancedResult), r ∈ TraceProcessor.processResults intent rs →
        r.status = Status.passed ∨ r.status = Status.failed
        ∨ r.status = Status.skipped :=
  ⟨rfl, rfl,
   fun intent rs r h => TraceProcessor.processResults_status_mem intent rs r h⟩

/-- Witness for C8: processing a single `timedOut` raw result exposes one
of the three report statuses (in fact `failed`). -/
theorem processResults_status_exposed_witness :
    (TraceProcessor.enhanceResult ⟨false, none⟩
      ⟨"t", Status.timedOut, 0, [], none⟩).status = Status.passed
    ∨ (TraceProcessor.enhanceResult ⟨false, none⟩
      ⟨"t", Status.timedOut, 0, [], none⟩).status = Status.failed
    ∨ (TraceProcessor.enhanceResult ⟨false, none⟩
      ⟨"t", Status.timedOut, 0, [], none⟩).status = Status.skipped :=
  processResults_status_exposed.2.2 ⟨false, none⟩
    [⟨"t", Status.timedOut, 0, [], none⟩] _
    (by simp [TraceProcessor.processResults])

/-- The outcome classifier only ever produces `passed` or `failed`. -/
theorem determineTestStatus_cases (d : ArtifactDir) :
    TraceProcessor.determineTestStatus d = Status.passed
    ∨ TraceProcessor.determineTestStatus d = Status.failed := by
  unfold TraceProcessor.determineTestStatus
  by_cases h1 : d.traceFile.isSome = true
  · simp [h1]
  · by_cases h2 : (d.screenshots.any fun s =>
        strIncludes s.filePath "error" || strIncludes s.filePath "failure")
        = true <;> simp [h1, h2]

/-- C10: `determineTestStatus` never returns `skipped`, `timedOut` or
`interrupted`; consequently a report assembled solely from scanned
directories has `summary.skipped = 0` and no result with `actualOutcome =
skip`. -/
theorem determineTestStatus_never_skipped :
    (∀ d : ArtifactDir, TraceProcessor.determineTestStatus d = Status.passed
      ∨ TraceProcessor.determineTestStatus d = Status.failed)
  ∧ ∀ (intent : TestExecutionIntent) (dirs : List (String × ArtifactDir)),
      (TraceProcessor.calculateEnhancedSummary
        (TraceProcessor.processResults intent
          (TraceProcessor.scanResults dirs))).skipped = 0
      ∧ ∀ r ∈ TraceProcessor.processResults intent
          (TraceProcessor.scanResults dirs),
          r.actualOutcome ≠ Outcome.skip := by
  refine ⟨determineTestStatus_cases, fun intent dirs => ?_⟩
  have key : ∀ r ∈ TraceProcessor.processResults intent
      (TraceProcessor.scanResults dirs),
      r.status ≠ Status.skipped ∧ r.actualOutcome ≠ Outcome.skip := by
    intro r hr
    obtain ⟨raw, hraw, rfl⟩ := List.mem_map.mp hr
    obtain ⟨nd, _, rfl⟩ := List.mem_map.mp hraw
    rcases determineTestStatus_cases nd.2 with h | h <;>
      simp [TraceProcessor.enhanceResult, TraceProcessor.processTestDirectory,
        TraceProcessor.normalizeStatus, TraceProcessor.mapStatusToOutcome, h]
  refine ⟨?_, fun r hr => (key r hr).2⟩
  simp only [TraceProcessor.calculateEnhancedSummary]
  rw [List.length_eq_zero, List.filter_eq_nil_iff]
  intro a ha
  simpa using (key a ha).1

/-- Witness for C10: a one-directory run (with a trace bundle) has
`summary.skipped = 0`, and its single result does not have `actualOutcome =
skip`. -/
theorem determineTestStatus_never_skipped_witness :
    (TraceProcessor.determineTestStatus ⟨some "trace.zip", []⟩ = Status.passed
      ∨ TraceProcessor.determineTestStatus ⟨some "trace.zip", []⟩
        = Status.failed)
    ∧ (TraceProcessor.calculateEnhancedSummary
        (TraceProcessor.processResults ⟨false, none⟩
          (TraceProcessor.scanResults [("t1", ⟨some "trace.zip", []⟩)]))).skipped
        = 0
    ∧ (TraceProcessor.enhanceResult ⟨false, none⟩
        (TraceProcessor.processTestDirectory "t1" ⟨some "trace.zip", []⟩)).actualOutcome
        ≠ Outcome.skip :=
  ⟨determineTestStatus_never_skipped.1 ⟨some "trace.zip", []⟩,
   (determineTestStatus_never_skipped.2 ⟨false, none⟩
     [("t1", ⟨some "trace.zip", []⟩)]).1,
   (determineTestStatus_never_skipped.2 ⟨false, none⟩
     [("t1", ⟨some "trace.zip", []⟩)]).2 _
     (by simp [TraceProcessor.processResults, TraceProcessor.scanResults])⟩

/-- A single GitHub-adapter index update never leaves more than 100
entries. -/
theorem githubUpdate_length_le (s : List GitHubIndexEntry)
    (e : GitHubIndexEntry) :
    (GitHubStorageAdapter.updateReportsIndex s e).length ≤ 100 := by
  unfold GitHubStorageAdapter.updateReportsIndex
  by_cases h : (e :: s).length > 100 <;>
    simp only [h, if_true, if_false, reduceIte, List.length_take] <;> omega

/-- A single GitHub-uploader index update never leaves more than 100
entries. -/
theorem githubUploaderUpdate_length_le (s : List GitHubIndexEntry)
    (e : GitHubIndexEntry) :
    (GitHubUploader.updateReportsIndex s e).length ≤ 100 := by
  unfold GitHubUploader.updateReportsIndex
  by_cases h : (e :: s).length > 100 <;>
    simp only [h, if_true, if_false, reduceIte, List.length_take] <;> omega

/-- A single SharePoint-adapter index update never leaves more than 100
entries. -/
theorem sharepointUpdate_length_le (s : List SharePointIndexEntry)
    (e : SharePointIndexEntry) :
    (SharePointStorageAdapter.updateReportsIndex s e).length ≤ 100 := by
  unfold SharePointStorageAdapter.updateReportsIndex
  simp only [List.length_take]
  omega

/-- Folding any update that clamps to 100 over a nonempty sequence of new
entries leaves at most 100 entries, whatever the starting index was. -/
theorem foldl_length_le {α β : Type} (f : List α → β → List α)
    (hf : ∀ s e, (f s e).length ≤ 100) :
    ∀ (es : List β) (s : List α), es ≠ [] → (es.foldl f s).length ≤ 100 := by
  intro es
  induction es with
  | nil => intro s h; exact absurd rfl h
  | cons e t ih =>
    intro s _
    by_cases ht : t = []
    · subst ht; simpa using hf s e
    · simpa using ih (f s e) ht

/-- C5: for every starting index and every nonempty sequence of index
updates, the resulting index holds at most 100 entries — in the GitHub
storage adapter, the GitHub uploader and the SharePoint storage adapter
alike. -/
theorem updateReportsIndex_bounded :
    (∀ (start : List GitHubIndexEntry) (es : List GitHubIndexEntry),
      es ≠ [] →
      (es.foldl GitHubStorageAdapter.updateReportsIndex start).length ≤ 100)
  ∧ (∀ (start : List GitHubIndexEntry) (es : List GitHubIndexEntry),
      es ≠ [] →
      (es.foldl GitHubUploader.updateReportsIndex start).length ≤ 100)
  ∧ (∀ (start : List SharePointIndexEntry) (es : List SharePointIndexEntry),
      es ≠ [] →
      (es.foldl SharePointStorageAdapter.updateReportsIndex start).length
        ≤ 100) :=
  ⟨fun start es h =>
    foldl_length_le GitHubStorageAdapter.updateReportsIndex
      githubUpdate_length_le es start h,
   fun start es h =>
    foldl_length_le GitHubUploader.updateReportsIndex
      githubUploaderUpdate_length_le es start h,
   fun start es h =>
    foldl_length_le SharePointStorageAdapter.updateReportsIndex
      sharepointUpdate_length_le es start h⟩

/-- Witness for C5: one update applied to an empty index leaves at most 100
entries, in all three implementations. -/
theorem updateReportsIndex_bounded_witness :
    ([(⟨"R1", "t", "dev", "main", ⟨1, 1, 0, 0, 0, 0, 1, 0⟩, "u"⟩ :
        GitHubIndexEntry)].foldl
      GitHubStorageAdapter.updateReportsIndex []).length ≤ 100
    ∧ ([(⟨"R1", "t", "dev", "main", ⟨1, 1, 0, 0, 0, 0, 1, 0⟩, "u"⟩ :
        GitHubIndexEntry)].foldl
      GitHubUploader.updateReportsIndex []).length ≤ 100
    ∧ ([(⟨"R1", "t", "dev", "main", "local", 1, 1, 0, 5⟩ :
        SharePointIndexEntry)].foldl
      SharePointStorageAdapter.updateReportsIndex []).length ≤ 100 :=
  ⟨updateReportsIndex_bounded.1 [] _ (by simp),
   updateReportsIndex_bounded.2.1 [] _ (by simp),
   updateReportsIndex_bounded.2.2 [] _ (by simp)⟩

/-- Counterexample to C1: the GitHub storage adapter's index update does
NOT remove the existing entry with the same id — re-uploading report id
`R1` onto an index that already holds `R1` grows the index from 1 to 2
entries and keeps the stale entry behind the new one. -/
theorem githubUpdateReportsIndex_duplicates_existing_id :
    let a : GitHubIndexEntry :=
      ⟨"R1", "t1", "dev", "main", ⟨1, 0, 1, 0, 0, 1, 0, 0⟩, "u1"⟩
    let b : GitHubIndexEntry :=
      ⟨"R1", "t2", "dev", "main", ⟨1, 1, 0, 0, 0, 0, 1, 0⟩, "u2"⟩
    b.id = a.id
    ∧ GitHubStorageAdapter.updateReportsIndex [a] b = [b, a]
    ∧ (GitHubStorageAdapter.updateReportsIndex [a] b).length = 2 :=
  ⟨rfl, rfl, rfl⟩

/-- C1 as amended: only the SharePoint adapter implements
replace-not-duplicate — updating with an entry whose id already exists
never increases the index length, puts the new entry at position 0, and
leaves exactly one entry with that id.  The GitHub storage adapter and the
GitHub uploader prepend without removing: on an index of at most 99
entries the update is exactly `newEntry :: index`, so an existing id is
duplicated (the length increases), though the new entry is still at
position 0. -/
theorem updateReportsIndex_replace_semantics :
    (∀ (idx : List SharePointIndexEntry) (e : SharePointIndexEntry),
      (∃ a ∈ idx, a.id = e.id) →
      (SharePointStorageAdapter.updateReportsIndex idx e).length ≤ idx.length
      ∧ (SharePointStorageAdapter.updateReportsIndex idx e).head? = some e
      ∧ (SharePointStorageAdapter.updateReportsIndex idx e).countP
          (fun r => r.id == e.id) = 1)
  ∧ (∀ (idx : List GitHubIndexEntry) (e : GitHubIndexEntry),
      idx.length ≤ 99 →
      GitHubStorageAdapter.updateReportsIndex idx e = e :: idx
      ∧ GitHubUploader.updateReportsIndex idx e = e :: idx) := by
  constructor
  · intro idx e he
    unfold SharePointStorageAdapter.updateReportsIndex
    have hlt : (idx.filter (fun r => r.id != e.id)).length < idx.length := by
      rw [List.length_filter_lt_length_iff_exists]
      obtain ⟨a, ha, hid⟩ := he
      exact ⟨a, ha, by simp [hid]⟩
    refine ⟨?_, ?_, ?_⟩
    · have := List.length_take 100
        (e :: idx.filter (fun r => r.id != e.id))
      simp only [List.length_take, List.length_cons]
      omega
    · rw [List.take_succ_cons]
      rfl
    · rw [List.take_succ_cons, List.countP_cons]
      have hz : (List.take 99 (idx.filter (fun r => r.id != e.id))).countP
          (fun r => r.id == e.id) = 0 := by
        rw [List.countP_eq_zero]
        intro a ha
        have hmem := List.take_subset 99 _ ha
        have := (List.mem_filter.mp hmem).2
        simp only [bne_iff_ne, ne_eq, decide_eq_true_eq] at this
        simp [this]
      simp [hz]
  · intro idx e hlen
    have h : ¬((e :: idx).length > 100) := by
      simp only [List.length_cons]
      omega
    constructor
    · unfold GitHubStorageAdapter.updateReportsIndex
      simp [h]
      omega
    · unfold GitHubUploader.updateReportsIndex
      simp [h]
      omega

/-- Witness for the amended C1: re-uploading id `R1` through the SharePoint
adapter keeps the index at one entry, at position 0, with a single `R1`
entry; re-uploading id `R1` through the GitHub adapter and uploader yields
the two-entry index `[new, old]`. -/
theorem updateReportsIndex_replace_semantics_witness :
    (SharePointStorageAdapter.updateReportsIndex
        [⟨"R1", "t1", "dev", "main", "local", 1, 0, 1, 5⟩]
        ⟨"R1", "t2", "dev", "main", "local", 1, 1, 0, 6⟩).length ≤ 1
    ∧ (SharePointStorageAdapter.updateReportsIndex
        [⟨"R1", "t1", "dev", "main", "local", 1, 0, 1, 5⟩]
        ⟨"R1", "t2", "dev", "main", "local", 1, 1, 0, 6⟩).head?
      = some ⟨"R1", "t2", "dev", "main", "local", 1, 1, 0, 6⟩
    ∧ (SharePointStorageAdapter.updateReportsIndex
        [⟨"R1", "t1", "dev", "main", "local", 1, 0, 1, 5⟩]
        ⟨"R1", "t2", "dev", "main", "local", 1, 1, 0, 6⟩).countP
        (fun r => r.id == "R1") = 1
    ∧ GitHubStorageAdapter.updateReportsIndex
        [⟨"R1", "t1", "dev", "main", ⟨1, 0, 1, 0, 0, 1, 0, 0⟩, "u1"⟩]
        ⟨"R1", "t2", "dev", "main", ⟨1, 1, 0, 0, 0, 0, 1, 0⟩, "u2"⟩
      = [⟨"R1", "t2", "dev", "main", ⟨1, 1, 0, 0, 0, 0, 1, 0⟩, "u2"⟩,
         ⟨"R1", "t1", "dev", "main", ⟨1, 0, 1, 0, 0, 1, 0, 0⟩, "u1"⟩]
    ∧ GitHubUploader.updateReportsIndex
        [⟨"R1", "t1", "dev", "main", ⟨1, 0, 1, 0, 0, 1, 0, 0⟩, "u1"⟩]
        ⟨"R1", "t2", "dev", "main", ⟨1, 1, 0, 0, 0, 0, 1, 0⟩, "u2"⟩
      = [⟨"R1", "t2", "dev", "main", ⟨1, 1, 0, 0, 0, 0, 1, 0⟩, "u2"⟩,
         ⟨"R1", "t1", "dev", "main", ⟨1, 0, 1, 0, 0, 1, 0, 0⟩, "u1"⟩] := by
  have hsp := updateReportsIndex_replace_semantics.1
    [⟨"R1", "t1", "dev", "main", "local", 1, 0, 1, 5⟩]
    ⟨"R1", "t2", "dev", "main", "local", 1, 1, 0, 6⟩
    ⟨⟨"R1", "t1", "dev", "main", "local", 1, 0, 1, 5⟩, by simp, rfl⟩
  have hgh := updateReportsIndex_replace_semantics.2
    [⟨"R1", "t1", "dev", "main", ⟨1, 0, 1, 0, 0, 1, 0, 0⟩, "u1"⟩]
    ⟨"R1", "t2", "dev", "main", ⟨1, 1, 0, 0, 0, 0, 1, 0⟩, "u2"⟩
    (by simp)
  exact ⟨hsp.1, hsp.2.1, hsp.2.2, hgh.1, hgh.2⟩

/-- The error-extraction loop stops at the first malformed structured
entry, returning exactly what it accumulated from the entries before it. -/
theorem extractErrorsLoop_stops_at_malformed
    (bad : TraceEntry) (hbad : TraceProcessor.isStructuredEntry bad = true)
    (hbadp : bad.parsed = none) :
    ∀ (pre : List TraceEntry) (rest : List TraceEntry)
      (acc : List PlaywrightError),
      (∀ e ∈ pre, TraceProcessor.isStructuredEntry e = true →
        e.parsed.isSome = true) →
      TraceProcessor.extractErrorsLoop (pre ++ bad :: rest) acc
        = TraceProcessor.extractErrorsLoop pre acc := by
  intro pre
  induction pre with
  | nil =>
    intro rest acc _
    simp [TraceProcessor.extractErrorsLoop, hbad, hbadp]
  | cons e p ih =>
    intro rest acc h
    have he := h e (List.mem_cons_self e p)
    have hp := fun x hx => h x (List.mem_cons_of_mem _ hx)
    cases hstruct : TraceProcessor.isStructuredEntry e
    · simp only [List.cons_append, TraceProcessor.extractErrorsLoop, hstruct,
        Bool.false_eq_true, if_false]
      exact ih rest acc hp
    · obtain ⟨d, hd⟩ := Option.isSome_iff_exists.mp (he hstruct)
      simp only [List.cons_append, TraceProcessor.extractErrorsLoop, hstruct,
        if_true, hd]
      exact ih rest _ hp

/-- The step-extraction loop stops at the first malformed structured entry,
returning exactly what it accumulated from the entries before it. -/
theorem extractStepsLoop_stops_at_malformed
    (bad : TraceEntry) (hbad : TraceProcessor.isStructuredEntry bad = true)
    (hbadp : bad.parsed = none) :
    ∀ (pre : List TraceEntry) (rest : List TraceEntry) (acc : List TestStep),
      (∀ e ∈ pre, TraceProcessor.isStructuredEntry e = true →
        e.parsed.isSome = true) →
      TraceProcessor.extractStepsLoop (pre ++ bad :: rest) acc
        = TraceProcessor.extractStepsLoop pre acc := by
  intro pre
  induction pre with
  | nil =>
    intro rest acc _
    simp [TraceProcessor.extractStepsLoop, hbad, hbadp]
  | cons e p ih =>
    intro rest acc h
    have he := h e (List.mem_cons_self e p)
    have hp := fun x hx => h x (List.mem_cons_of_mem _ hx)
    cases hstruct : TraceProcessor.isStructuredEntry e
    · simp only [List.cons_append, TraceProcessor.extractStepsLoop, hstruct,
        Bool.false_eq_true, if_false]
      exact ih rest acc hp
    · obtain ⟨d, hd⟩ := Option.isSome_iff_exists.mp (he hstruct)
      simp only [List.cons_append, TraceProcessor.extractStepsLoop, hstruct,
        if_true, hd]
      exact ih rest _ hp

/-- Counterexample to C4: in a bundle whose first structured entry is
malformed, the records of the later well-formed entry are NOT returned —
extraction of both errors and steps comes back empty, although the same
well-formed entry alone yields one error and one step.  (The source's
`try`/`catch` wraps the whole entry loop, so the first `JSON.parse` throw
abandons the remaining entries.) -/
theorem extractFromTrace_aborts_after_malformed_entry :
    let bad : TraceEntry := ⟨"trace.trace", none⟩
    let good : TraceEntry := ⟨"a.json",
      some ⟨some [⟨some "boom", none, none, none, none⟩],
        some [⟨some "click", none, 0, 5⟩]⟩⟩
    TraceProcessor.extractErrorsFromTrace "trace.zip" [good]
      = [⟨"boom", "", "unknown", 0, 0⟩]
    ∧ TraceProcessor.extractStepsFromTrace "trace.zip" [good]
      = [⟨"click", 5⟩]
    ∧ TraceProcessor.extractErrorsFromTrace "trace.zip" [bad, good] = []
    ∧ TraceProcessor.extractStepsFromTrace "trace.zip" [bad, good] = [] := by
  exact ⟨by decide, by decide, by decide, by decide⟩

/-- C4 as amended: extraction never throws, but a malformed structured
entry aborts the rest of the bundle — when every structured entry of `pre`
parses and `bad` is a malformed structured entry, extracting from
`pre ++ bad :: rest` returns exactly the records extracted from `pre`
(the entries of `rest` are lost). -/
theorem extractFromTrace_prefix_before_malformed
    (path : String) (pre rest : List TraceEntry) (bad : TraceEntry)
    (hpre : ∀ e ∈ pre, TraceProcessor.isStructuredEntry e = true →
      e.parsed.isSome = true)
    (hbad : TraceProcessor.isStructuredEntry bad = true)
    (hbadp : bad.parsed = none) :
    TraceProcessor.extractErrorsFromTrace path (pre ++ bad :: rest)
      = TraceProcessor.extractErrorsFromTrace path pre
    ∧ TraceProcessor.extractStepsFromTrace path (pre ++ bad :: rest)
      = TraceProcessor.extractStepsFromTrace path pre := by
  unfold TraceProcessor.extractErrorsFromTrace TraceProcessor.extractStepsFromTrace
  by_cases hzip : strEndsWith path ".zip" = true
  · simp only [hzip, if_true]
    exact ⟨extractErrorsLoop_stops_at_malformed bad hbad hbadp pre rest [] hpre,
      extractStepsLoop_stops_at_malformed bad hbad hbadp pre rest [] hpre⟩
  · simp [hzip]

/-- Witness for the amended C4: with one well-formed entry before the
malformed one and one after it, extraction returns exactly the records of
the leading entry. -/
theorem extractFromTrace_prefix_before_malformed_witness :
    TraceProcessor.extractErrorsFromTrace "trace.zip"
      [⟨"a.json", some ⟨some [⟨some "boom", none, none, none, none⟩], none⟩⟩,
       ⟨"trace.trace", none⟩,
       ⟨"b.json", some ⟨some [⟨some "late", none, none, none, none⟩], none⟩⟩]
      = TraceProcessor.extractErrorsFromTrace "trace.zip"
        [⟨"a.json", some ⟨some [⟨some "boom", none, none, none, none⟩], none⟩⟩]
    ∧ TraceProcessor.extractStepsFromTrace "trace.zip"
      [⟨"a.json", some ⟨some [⟨some "boom", none, none, none, none⟩], none⟩⟩,
       ⟨"trace.trace", none⟩,
       ⟨"b.json", some ⟨some [⟨some "late", none, none, none, none⟩], none⟩⟩]
      = TraceProcessor.extractStepsFromTrace "trace.zip"
        [⟨"a.json", some ⟨some [⟨some "boom", none, none, none, none⟩], none⟩⟩] :=
  extractFromTrace_prefix_before_malformed "trace.zip"
    [⟨"a.json", some ⟨some [⟨some "boom", none, none, none, none⟩], none⟩⟩]
    [⟨"b.json", some ⟨some [⟨some "late", none, none, none, none⟩], none⟩⟩]
    ⟨"trace.trace", none⟩ (by decide) (by decide) rfl

/-- C9: when the counter file exists and parses, `getNextReportNumber`
returns the stored `lastNumber` plus one and persists it; when the file is
absent it returns 1 and persists it; on any read/parse/write failure it
returns the clock value (`Date.now()`) instead of throwing; and two
successive successful calls return strictly increasing numbers. -/
theorem getNextReportNumber_spec :
    (∀ (w : ReportManager.World) (d : ReportManager.CounterData),
      w.file = ReportManager.CounterFile.ok d → w.writeOk = true →
      (ReportManager.getNextReportNumber w).1 = d.lastNumber.getD 0 + 1
      ∧ (ReportManager.getNextReportNumber w).2.file
        = ReportManager.CounterFile.ok ⟨some (d.lastNumber.getD 0 + 1)⟩)
  ∧ (∀ w : ReportManager.World,
      w.file = ReportManager.CounterFile.absent → w.writeOk = true →
      (ReportManager.getNextReportNumber w).1 = 1
      ∧ (ReportManager.getNextReportNumber w).2.file
        = ReportManager.CounterFile.ok ⟨some 1⟩)
  ∧ (∀ w : ReportManager.World,
      w.file = ReportManager.CounterFile.corrupt ∨ w.writeOk = false →
      (ReportManager.getNextReportNumber w).1 = w.clock
      ∧ (ReportManager.getNextReportNumber w).2 = w)
  ∧ (∀ w : ReportManager.World,
      w.file ≠ ReportManager.CounterFile.corrupt → w.writeOk = true →
      (ReportManager.getNextReportNumber w).1
        < (ReportManager.getNextReportNumber
            (ReportManager.getNextReportNumber w).2).1) := by
  refine ⟨?_, ?_, ?_, ?_⟩
  · intro w d hf hw
    simp [ReportManager.getNextReportNumber, hf, hw]
  · intro w hf hw
    simp [ReportManager.getNextReportNumber, hf, hw]
  · intro w h
    rcases h with hf | hw
    · simp [ReportManager.getNextReportNumber, hf]
    · cases hfile : w.file <;>
        simp [ReportManager.getNextReportNumber, hfile, hw]
  · intro w hf hw
    cases hfile : w.file with
    | absent =>
      simp [ReportManager.getNextReportNumber, hfile, hw]
    | corrupt => exact absurd hfile hf
    | ok d =>
      simp [ReportManager.getNextReportNumber, hfile, hw]

/-- Witness for C9: from a parsed counter file storing 5 (write
succeeding), the call returns 6 and persists 6; from an absent file it
returns 1; from a corrupt file it returns the clock value 777; and the
successful call from 5 is followed by a strictly larger number. -/
theorem getNextReportNumber_spec_witness :
    (ReportManager.getNextReportNumber
      ⟨ReportManager.CounterFile.ok ⟨some 5⟩, true, 777⟩).1 = 6
    ∧ (ReportManager.getNextReportNumber
      ⟨ReportManager.CounterFile.ok ⟨some 5⟩, true, 777⟩).2.file
      = ReportManager.CounterFile.ok ⟨some 6⟩
    ∧ (ReportManager.getNextReportNumber
      ⟨ReportManager.CounterFile.absent, true, 777⟩).1 = 1
    ∧ (ReportManager.getNextReportNumber
      ⟨ReportManager.CounterFile.corrupt, true, 777⟩).1 = 777
    ∧ (ReportManager.getNextReportNumber
      ⟨ReportManager.CounterFile.ok ⟨some 5⟩, true, 777⟩).1
      < (ReportManager.getNextReportNumber
          (ReportManager.getNextReportNumber
            ⟨ReportManager.CounterFile.ok ⟨some 5⟩, true, 777⟩).2).1 :=
  ⟨(getNextReportNumber_spec.1 _ ⟨some 5⟩ rfl rfl).1,
   (getNextReportNumber_spec.1 _ ⟨some 5⟩ rfl rfl).2,
   (getNextReportNumber_spec.2.1 _ rfl rfl).1,
   (getNextReportNumber_spec.2.2.1 _ (Or.inl rfl)).1,
   getNextReportNumber_spec.2.2.2 _ (by decide) rfl⟩
